import Mathlib

/-! Shallow embedding of the scraper bot (src/app.js with constants from
src/config.js).

The program is a single polling loop over mutable module-level state
(isRunning, stopEndTime, runStartTime, lastSendTime, interval) plus three
JSON files (stats.json, events.json, bins.json).  We model the mutable
variables together with the file contents as one record `BotState`,
wall-clock instants as integers counted in seconds, and each of the three
phases of the loop body (the auto-stop check, the handling of one inbound
message, one emission attempt) as a pure state transformer that also
returns the list of outbound sends it attempts, as pairs of chat id and
text.  Randomness (the generated card text, the /gen output) and the
success of an outbound send are external, so they appear as explicit
oracle parameters.  Event-log timestamps and the exact JSON rendering of
the /logs dump are elided; no observable property below depends on them.
ADMIN_ID and CHANNEL_ID are deployment configuration and appear as the
fields of `Config`. -/

/-- DEFAULT_INTERVAL from src/config.js: seconds between cards. -/
def DEFAULT_INTERVAL : Int := 10

/-- ERROR_SLEEP from src/config.js: wait 600s if sending fails. -/
def ERROR_SLEEP : Int := 600

/-- Deployment configuration: the operator (ADMIN_ID) and the distribution
channel (CHANNEL_ID), modelled as integer chat ids. -/
structure Config where
  adminId : Int
  channelId : Int
deriving Repr, DecidableEq

/-- An outbound send: destination chat id and message text. -/
abbrev Msg := Int × String

/-- One entry of events.json, as written by logEvent in src/app.js.
Timestamps are elided. -/
inductive Event where
  | start
  | timedStop (stopIn : Int)
  | stopCmd (ranFor : Option Int)
  | stime (duration : Int)
  | intervalChange (newInterval : Int)
  | addBin (added : List String)
  | removeAll
  | removeBin (bin : String)
  | autoStop (ranFor : Int)
deriving Repr, DecidableEq

/-- The mutable state of the bot: the module-level variables of src/app.js
together with the contents of the three JSON files.  stats is the mapping
day -> (sent, error) of stats.json as an association list in insertion
order; bins is the list of bins.json; events the log of events.json. -/
structure BotState where
  isRunning : Bool
  stopEndTime : Option Int
  runStartTime : Option Int
  lastSendTime : Int
  interval : Int
  bins : List String
  stats : List (String × Nat × Nat)
  events : List Event
deriving Repr, DecidableEq

/-- The state at process start: running=false, no timers, lastSendTime=0,
interval=DEFAULT_INTERVAL; the three files hold whatever they held. -/
def initStateWith (bins0 : List String) (stats0 : List (String × Nat × Nat))
    (events0 : List Event) : BotState :=
  { isRunning := false, stopEndTime := none, runStartTime := none,
    lastSendTime := 0, interval := DEFAULT_INTERVAL,
    bins := bins0, stats := stats0, events := events0 }

/-- ASCII model of JavaScript toLowerCase on one character. -/
def lowerChar (c : Char) : Char :=
  if 'A' ≤ c ∧ c ≤ 'Z' then Char.ofNat (c.toNat + 32) else c

/-- Model of JavaScript String.prototype.toLowerCase. -/
def lowerAscii (s : String) : String := String.mk (s.toList.map lowerChar)

/-- Model of JavaScript String.prototype.startsWith. -/
def strStartsWith (s p : String) : Bool := p.toList.isPrefixOf s.toList

/-- Model of text.replace applied with a whitespace pattern and "": drop
every whitespace character. -/
def removeWs (s : String) : String :=
  String.mk (s.toList.filter (fun c => !c.isWhitespace))

/-- Splitter for text.trim().split on runs of whitespace: accumulate the
current token (reversed) and cut at whitespace. -/
def splitWsAux : List Char → List Char → List (List Char)
  | [], acc => if acc = [] then [] else [acc.reverse]
  | c :: rest, acc =>
    if c.isWhitespace then
      if acc = [] then splitWsAux rest [] else acc.reverse :: splitWsAux rest []
    else splitWsAux rest (c :: acc)

/-- Model of cmdParts in src/app.js line 271: text.trim().split on
whitespace with limit 2.  The JavaScript limit truncates the array, so at
most the first two whitespace-separated tokens survive. -/
def cmdPartsOf (text : String) : List String :=
  ((splitWsAux text.toList []).map (fun cs => String.mk cs)).take 2

/-- Decimal digit run value: none when the run is empty (parseInt NaN). -/
def takeDigitsVal (cs : List Char) : Option Nat :=
  match cs.takeWhile Char.isDigit with
  | [] => none
  | ds => some (ds.foldl (fun a c => a * 10 + (c.toNat - 48)) 0)

/-- Hexadecimal digit value of one character, none otherwise. -/
def hexDigitVal (c : Char) : Option Nat :=
  if '0' ≤ c ∧ c ≤ '9' then some (c.toNat - 48)
  else if 'a' ≤ c ∧ c ≤ 'f' then some (c.toNat - 87)
  else if 'A' ≤ c ∧ c ≤ 'F' then some (c.toNat - 55)
  else none

/-- Hexadecimal digit run value: none when the run is empty. -/
def takeHexVal (cs : List Char) : Option Nat :=
  match cs.takeWhile (fun c => (hexDigitVal c).isSome) with
  | [] => none
  | ds => some (ds.foldl (fun a c => a * 16 + ((hexDigitVal c).getD 0)) 0)

/-- Unsigned part of JavaScript parseInt with default radix detection:
a 0x or 0X head switches to hexadecimal. -/
def parseIntNoSign (cs : List Char) : Option Nat :=
  match cs with
  | '0' :: c :: rest =>
    if c = 'x' ∨ c = 'X' then takeHexVal rest else takeDigitsVal ('0' :: c :: rest)
  | _ => takeDigitsVal cs

/-- Model of JavaScript parseInt(s) with no radix argument: skip leading
whitespace, read an optional sign, then the longest digit run; none models
NaN.  parseIntJS "12abc" = some 12 and parseIntJS "abc" = none, like
parseInt. -/
def parseIntJS (s : String) : Option Int :=
  match s.toList.dropWhile Char.isWhitespace with
  | '-' :: rest => (parseIntNoSign rest).map (fun n => -(n : Int))
  | '+' :: rest => (parseIntNoSign rest).map (fun n => (n : Int))
  | cs => (parseIntNoSign cs).map (fun n => (n : Int))

/-- incStats key selector: true bumps sent, false bumps error, as in
incrementStats of src/app.js. -/
def incStatsKey (isSent : Bool) : Nat × Nat → Nat × Nat
  | (se, er) => if isSent then (se + 1, er) else (se, er + 1)

/-- Model of incrementStats: lazily create today's entry then bump one
counter. -/
def incrementStats (day : String) (isSent : Bool) :
    List (String × Nat × Nat) → List (String × Nat × Nat)
  | [] => [(day, incStatsKey isSent (0, 0))]
  | (d, se) :: rest =>
    if d = day then (d, incStatsKey isSent se) :: rest
    else (d, se) :: incrementStats day isSent rest

/-- Read one day's counters from the stats table, defaulting to (0, 0). -/
def lookupStats (day : String) : List (String × Nat × Nat) → Nat × Nat
  | [] => (0, 0)
  | (d, se) :: rest => if d = day then se else lookupStats day rest

/-- Insertion into a sorted list of strings, for the model of the
JavaScript sort() used by /info. -/
def insertSorted (x : String) : List String → List String
  | [] => [x]
  | y :: ys => if x ≤ y then x :: y :: ys else y :: insertSorted x ys

/-- Lexicographic sort of day keys, the model of allDays.sort(). -/
def sortStrings : List String → List String
  | [] => []
  | x :: xs => insertSorted x (sortStrings xs)

/-- Model of JavaScript String.prototype.trim: drop whitespace at both
ends. -/
def jsTrim (s : String) : String :=
  String.mk (((s.toList.dropWhile Char.isWhitespace).reverse.dropWhile
    Char.isWhitespace).reverse)

/-- Splitter for the comma split used by /bin: JavaScript split(",") keeps
empty fields, so "a,,b" gives three fields and "" gives one empty field. -/
def splitCommaAux : List Char → List Char → List String
  | [], acc => [String.mk acc.reverse]
  | c :: rest, acc =>
    if c = ',' then String.mk acc.reverse :: splitCommaAux rest []
    else splitCommaAux rest (c :: acc)

/-- Model of rawBins.split(",") in src/app.js line 353. -/
def splitComma (s : String) : List String := splitCommaAux s.toList []

/-- The /bin accumulation loop of src/app.js lines 356-362: trim each
token, skip empties and tokens already present, append the rest and count
them. -/
def addBinsLoop : List String → List String → Nat → List String × Nat
  | [], cur, k => (cur, k)
  | b :: bs, cur, k =>
    let t := jsTrim b
    if t ≠ "" ∧ t ∉ cur then addBinsLoop bs (cur ++ [t]) (k + 1)
    else addBinsLoop bs cur k

/-- Event type names as written into events.json by src/app.js. -/
def eventTypeName : Event → String
  | Event.start => "start"
  | Event.timedStop _ => "timed-stop"
  | Event.stopCmd _ => "stop"
  | Event.stime _ => "stime"
  | Event.intervalChange _ => "interval-change"
  | Event.addBin _ => "add-bin"
  | Event.removeAll => "remove-all"
  | Event.removeBin _ => "remove-bin"
  | Event.autoStop _ => "auto-stop"

/-- JSON-ish rendering of the extra fields of an event, used only by the
/logs report text. -/
def eventDataStr : Event → String
  | Event.start => "\x7b\"mode\":\"indefinite\"\x7d"
  | Event.timedStop n => "\x7b\"stop_in_seconds\":" ++ toString n ++ "\x7d"
  | Event.stopCmd (some r) => "\x7b\"ran_for_seconds\":" ++ toString r ++ "\x7d"
  | Event.stopCmd none => "\x7b\x7d"
  | Event.stime n => "\x7b\"duration_seconds\":" ++ toString n ++ "\x7d"
  | Event.intervalChange n => "\x7b\"new_interval\":" ++ toString n ++ "\x7d"
  | Event.addBin l =>
    "\x7b\"added\":[" ++ String.intercalate "," (l.map (fun b => "\"" ++ b ++ "\"")) ++ "]\x7d"
  | Event.removeAll => "\x7b\x7d"
  | Event.removeBin b => "\x7b\"bin\":\"" ++ b ++ "\"\x7d"
  | Event.autoStop r => "\x7b\"ran_for_seconds\":" ++ toString r ++ "\x7d"

/-- The not-authorized reply of src/app.js line 265. -/
def notAuthText : String :=
  "You are not authorized to use this bot. Please contact admin @ethicalakash."

/-- knownCmds of src/app.js line 262. -/
def knownCmds : List String :=
  ["/start", "/stop", "/time", "/info", "/logs", "/bin", "/remove", "/r", "/stime", "/gen"]

/-- The operator command chain of src/app.js lines 274-426, with the parts
of cmdParts already extracted: command is cmdParts[0].toLowerCase(), arg is
cmdParts[1] (or "" when absent, guarded by argc), argc is cmdParts.length.
genText is the comma-joined output of generateRandomBins, an external
random oracle. -/
def dispatchCmd (cfg : Config) (now : Int) (genText command arg : String)
    (argc : Nat) (s : BotState) : BotState × List Msg :=
  if command = "/start" then
    ({ s with isRunning := true, stopEndTime := none, runStartTime := some now,
              events := s.events ++ [Event.start] },
     [(cfg.adminId, "▶️ Bot started sending cards indefinitely.")])
  else if command = "/stop" then
    if argc > 1 then
      match parseIntJS arg with
      | some n =>
        ({ s with isRunning := true, stopEndTime := some (now + n), runStartTime := some now,
                  events := s.events ++ [Event.timedStop n] },
         [(cfg.adminId, "⏳ Bot will stop automatically in " ++ toString n ++ " seconds.")])
      | none => (s, [(cfg.adminId, "Usage: /stop <seconds>")])
    else
      ({ s with isRunning := false, runStartTime := none, stopEndTime := none,
                events := s.events ++ [Event.stopCmd (s.runStartTime.map (fun t => now - t))] },
       [(cfg.adminId, "⏹️ Bot stopped immediately.")])
  else if command = "/stime" then
    if argc > 1 then
      match parseIntJS arg with
      | some n =>
        ({ s with isRunning := true, runStartTime := some now, stopEndTime := some (now + n),
                  events := s.events ++ [Event.stime n] },
         [(cfg.adminId, "⏳ Bot started for " ++ toString n ++ " seconds. It will stop automatically.")])
      | none => (s, [(cfg.adminId, "Usage: /stime <seconds>")])
    else (s, [(cfg.adminId, "Usage: /stime <seconds>")])
  else if command = "/time" then
    if argc > 1 then
      match parseIntJS arg with
      | some n =>
        ({ s with interval := n, lastSendTime := now,
                  events := s.events ++ [Event.intervalChange n] },
         [(cfg.adminId, "⏱ Interval set to " ++ toString n ++ " second(s) per card.")])
      | none => (s, [(cfg.adminId, "Usage: /time <seconds>")])
    else (s, [(cfg.adminId, "Usage: /time <seconds>")])
  else if command = "/gen" then
    if argc > 1 then
      match parseIntJS arg with
      | some n =>
        if n > 0 then (s, [(cfg.adminId, genText)])
        else (s, [(cfg.adminId, "Please specify a positive number for /gen.")])
      | none => (s, [(cfg.adminId, "Please specify a positive number for /gen.")])
    else (s, [(cfg.adminId, "Usage: /gen <count>")])
  else if command = "/bin" then
    if argc > 1 then
      let newBins := splitComma (removeWs arg)
      let res := addBinsLoop newBins s.bins 0
      ({ s with bins := res.1, events := s.events ++ [Event.addBin newBins] },
       [(cfg.adminId, "✅ Added " ++ toString res.2 ++ " new BIN(s). Total in database: "
          ++ toString res.1.length)])
    else (s, [(cfg.adminId, "Usage: /bin <comma-separated BINs>")])
  else if command = "/remove" then
    ({ s with bins := [], events := s.events ++ [Event.removeAll] },
     [(cfg.adminId, "All BINs have been removed from the database.")])
  else if command = "/r" then
    if argc > 1 then
      let b := jsTrim arg
      if s.bins.contains b then
        ({ s with bins := s.bins.filter (fun x => x != b),
                  events := s.events ++ [Event.removeBin b] },
         [(cfg.adminId, "BIN " ++ b ++ " removed from the database.")])
      else (s, [(cfg.adminId, "BIN " ++ b ++ " not found in the database.")])
    else (s, [(cfg.adminId, "Usage: /r <bin>")])
  else if command = "/info" then
    if s.stats = [] then (s, [(cfg.adminId, "No stats found yet.")])
    else
      (s, [(cfg.adminId, String.intercalate "\n"
        ("📊 <b>Daily Stats (Last 10 Days)</b>" ::
          (let allDays := sortStrings (s.stats.map (fun p => p.1))
           (allDays.drop (allDays.length - 10)).map (fun day =>
             "• <b>" ++ day ++ "</b> => Sent: " ++ toString (lookupStats day s.stats).1
               ++ ", Errors: " ++ toString (lookupStats day s.stats).2))))])
  else if command = "/logs" then
    if s.events = [] then (s, [(cfg.adminId, "No event logs found.")])
    else
      (s, [(cfg.adminId, String.intercalate "\n"
        ("📝 <b>Event Logs</b>" ::
          s.events.enum.map (fun p =>
            "<b>" ++ toString (p.1 + 1) ++ ".</b> <b>Type:</b> " ++ eventTypeName p.2
              ++ ", <b>Data:</b> " ++ eventDataStr p.2)))])
  else (s, [])

/-- Dispatch an operator command from the split parts. -/
def dispatchAdmin (cfg : Config) (now : Int) (genText : String)
    (parts : List String) (s : BotState) : BotState × List Msg :=
  dispatchCmd cfg now genText (lowerAscii (parts.headD "")) (parts.getD 1 "")
    parts.length s

/-- Handling of one inbound message, src/app.js lines 255-427: only texts
starting with "/" are considered; a non-operator sender gets the
not-authorized reply exactly when the lowercased text starts with a known
command name; operator texts are split with limit 2 and dispatched. -/
def handleMessage (cfg : Config) (now : Int) (senderId : Int) (text : String)
    (genText : String) (s : BotState) : BotState × List Msg :=
  if strStartsWith text "/" = true then
    if senderId = cfg.adminId then
      dispatchAdmin cfg now genText (cmdPartsOf text) s
    else if knownCmds.any (fun c => strStartsWith (lowerAscii text) c) = true then
      (s, [(senderId, notAuthText)])
    else (s, [])
  else (s, [])

/-- The auto-stop check of src/app.js lines 239-248.  The JavaScript
condition is the truthiness of stopEndTime (null and 0 are falsy) together
with now >= stopEndTime; the logged duration coerces a null runStartTime
to 0. -/
def autoStopStep (cfg : Config) (now : Int) (s : BotState) : BotState × List Msg :=
  match s.stopEndTime with
  | some t =>
    if t ≠ 0 ∧ now ≥ t then
      ({ s with isRunning := false, runStartTime := none, stopEndTime := none,
                events := s.events ++ [Event.autoStop (now - (s.runStartTime.getD 0))] },
       [(cfg.adminId, "⏹️ Time is up! The bot is now off.")])
    else (s, [])
  | none => (s, [])

/-- One emission attempt, src/app.js lines 432-476.  generateCardData
returns null exactly when the bins list is empty; otherwise the formatted
card text is random, so it is the oracle parameter cardText, and the
outcome of the channel send is the oracle parameter sendOk.  On failure
the code sleeps ERROR_SLEEP seconds and only then stores the current time
into lastSendTime, so the stored instant is now + ERROR_SLEEP. -/
def emitStep (cfg : Config) (now : Int) (day : String) (cardText : String)
    (sendOk : Bool) (s : BotState) : BotState × List Msg :=
  if s.isRunning = true ∧ now - s.lastSendTime ≥ s.interval then
    if s.bins = [] then
      (s, [(cfg.adminId, "⚠️ No BINs in database. Add some with /bin <list>.")])
    else if sendOk then
      ({ s with stats := incrementStats day true s.stats, lastSendTime := now },
       [(cfg.channelId, cardText)])
    else
      ({ s with stats := incrementStats day false s.stats,
                lastSendTime := now + ERROR_SLEEP },
       [(cfg.channelId, cardText),
        (cfg.adminId, "⚠️ Error sending card message. Retrying in 600s...")])
  else (s, [])

/-- One atomic piece of a loop iteration, with its external inputs. -/
inductive Step where
  | autoChk (now : Int)
  | msg (now : Int) (sender : Int) (text : String) (genText : String)
  | emit (now : Int) (day : String) (cardText : String) (sendOk : Bool)
deriving Repr

/-- Run one step. -/
def stepRun (cfg : Config) : Step → BotState → BotState × List Msg
  | Step.autoChk now, s => autoStopStep cfg now s
  | Step.msg now sender text g, s => handleMessage cfg now sender text g s
  | Step.emit now day card ok, s => emitStep cfg now day card ok s

/-- Run a sequence of steps, ignoring the outbound sends. -/
def runSteps (cfg : Config) (s : BotState) : List Step → BotState
  | [] => s
  | st :: rest => runSteps cfg (stepRun cfg st s).1 rest

/-- Modelled from the spec: an argument string "is an integer" when it is
an optional sign followed by one or more decimal digits and nothing else.
Used only to state the claim about non-integer arguments. -/
def isIntegerString (s : String) : Bool :=
  match s.toList with
  | [] => false
  | '-' :: rest => !rest.isEmpty && rest.all Char.isDigit
  | '+' :: rest => !rest.isEmpty && rest.all Char.isDigit
  | cs => cs.all Char.isDigit

/-- The usage or validation-error reply each of the four argument-taking
commands produces on an unparsable argument. -/
def usageText : String → String
  | "/stop" => "Usage: /stop <seconds>"
  | "/stime" => "Usage: /stime <seconds>"
  | "/time" => "Usage: /time <seconds>"
  | "/gen" => "Please specify a positive number for /gen."
  | _ => ""

/-- The run-state invariant of the specification: a set stop timer or a
set run start implies the running flag. -/
def RunInv (s : BotState) : Prop :=
  (s.stopEndTime ≠ none → s.isRunning = true) ∧
  (s.runStartTime ≠ none → s.isRunning = true)

/-- The value an admin /time message step would store into interval, when
it is such a step; none otherwise. -/
def stepTimeArg (cfg : Config) : Step → Option Int
  | Step.msg _ sender text _ =>
    if strStartsWith text "/" = true ∧ sender = cfg.adminId ∧
       lowerAscii ((cmdPartsOf text).headD "") = "/time" ∧ (cmdPartsOf text).length > 1 then
      parseIntJS ((cmdPartsOf text).getD 1 "")
    else none
  | _ => none

/-- Shared concrete configuration for the evaluated instances below. -/
def cfg0 : Config := { adminId := 1, channelId := 2 }

/-- Shared concrete start state. -/
def st0 : BotState := initStateWith [] [] []

/-- Concrete state with an armed stop timer, for the auto-stop instances. -/
def stAuto : BotState :=
  { st0 with isRunning := true, stopEndTime := some 10, runStartTime := some 3 }

/-- Concrete running state with one key, for the emission instances. -/
def stC2 : BotState := { st0 with isRunning := true, bins := ["400000"] }

/-! Helper lemmas about the string and tokenization models. -/

theorem strToList_append (a b : String) : (a ++ b).toList = a.toList ++ b.toList := by
  cases a with
  | mk l => cases b with
    | mk m => rfl

theorem strMk_toList (s : String) : String.mk s.toList = s := by
  cases s with
  | mk l => rfl

theorem splitWsAux_no_ws (cs : List Char) : ∀ acc : List Char,
    (∀ c ∈ cs, c.isWhitespace = false) →
    splitWsAux cs acc = if acc.reverse ++ cs = [] then [] else [acc.reverse ++ cs] := by
  induction cs with
  | nil =>
    intro acc _
    by_cases hacc : acc = [] <;> simp [splitWsAux, hacc]
  | cons c cs ih =>
    intro acc h
    have hc : c.isWhitespace = false := h c (by simp)
    rw [splitWsAux, if_neg (by simp [hc]), ih (c :: acc) (fun x hx => h x (by simp [hx]))]
    simp

theorem splitWsAux_break (cs : List Char) : ∀ acc rest : List Char,
    (∀ c ∈ cs, c.isWhitespace = false) →
    splitWsAux (cs ++ ' ' :: rest) acc =
      if acc.reverse ++ cs = [] then splitWsAux rest []
      else (acc.reverse ++ cs) :: splitWsAux rest [] := by
  induction cs with
  | nil =>
    intro acc rest _
    rw [List.nil_append, splitWsAux, if_pos (by decide)]
    by_cases hacc : acc = [] <;> simp [hacc]
  | cons c cs ih =>
    intro acc rest h
    have hc : c.isWhitespace = false := h c (by simp)
    rw [List.cons_append, splitWsAux, if_neg (by simp [hc]),
      ih (c :: acc) rest (fun x hx => h x (by simp [hx]))]
    simp

theorem cmdParts_pair (cmd arg : String)
    (h1 : cmd.toList ≠ []) (h2 : ∀ c ∈ cmd.toList, c.isWhitespace = false)
    (h3 : arg.toList ≠ []) (h4 : ∀ c ∈ arg.toList, c.isWhitespace = false) :
    cmdPartsOf (cmd ++ " " ++ arg) = [cmd, arg] := by
  unfold cmdPartsOf
  have ht : (cmd ++ " " ++ arg).toList = cmd.toList ++ ' ' :: arg.toList := by
    rw [strToList_append, strToList_append]
    simp [show (" " : String).toList = [' '] from rfl]
  rw [ht, splitWsAux_break _ _ _ h2, if_neg (by simpa using h1),
    splitWsAux_no_ws _ _ h4, if_neg (by simpa using h3)]
  simp [strMk_toList]

theorem cmdParts_firstTwo (a b c : String)
    (ha1 : a.toList ≠ []) (ha2 : ∀ ch ∈ a.toList, ch.isWhitespace = false)
    (hb1 : b.toList ≠ []) (hb2 : ∀ ch ∈ b.toList, ch.isWhitespace = false) :
    cmdPartsOf (a ++ " " ++ b ++ " " ++ c) = [a, b] := by
  unfold cmdPartsOf
  have ht : (a ++ " " ++ b ++ " " ++ c).toList
      = a.toList ++ ' ' :: (b.toList ++ ' ' :: c.toList) := by
    rw [strToList_append, strToList_append, strToList_append, strToList_append]
    simp [show (" " : String).toList = [' '] from rfl]
  rw [ht, splitWsAux_break _ _ _ ha2, if_neg (by simpa using ha1),
    splitWsAux_break _ _ _ hb2, if_neg (by simpa using hb1)]
  simp [strMk_toList]

theorem strStartsWith_append (p a b : String) (h : strStartsWith a p = true) :
    strStartsWith (a ++ b) p = true := by
  unfold strStartsWith at h ⊢
  rw [strToList_append, List.isPrefixOf_iff_prefix] at *
  exact h.trans (List.prefix_append _ _)

theorem handleMessage_admin (cfg : Config) (now : Int) (text g : String) (s : BotState)
    (h : strStartsWith text "/" = true) :
    handleMessage cfg now cfg.adminId text g s = dispatchAdmin cfg now g (cmdPartsOf text) s := by
  unfold handleMessage
  rw [if_pos h, if_pos rfl]

theorem dispatchAdmin_pair (cfg : Config) (now : Int) (g cmd arg : String) (s : BotState) :
    dispatchAdmin cfg now g [cmd, arg] s = dispatchCmd cfg now g (lowerAscii cmd) arg 2 s := rfl

theorem dispatchCmd_stop_some (cfg : Config) (now : Int) (g arg : String) (s : BotState)
    (n : Int) (hp : parseIntJS arg = some n) :
    dispatchCmd cfg now g "/stop" arg 2 s =
      ({ s with isRunning := true, stopEndTime := some (now + n), runStartTime := some now,
                events := s.events ++ [Event.timedStop n] },
       [(cfg.adminId, "⏳ Bot will stop automatically in " ++ toString n ++ " seconds.")]) := by
  unfold dispatchCmd
  rw [if_neg (by decide), if_pos rfl, if_pos (by decide), hp]

theorem dispatchCmd_stop_none (cfg : Config) (now : Int) (g arg : String) (s : BotState)
    (hp : parseIntJS arg = none) :
    dispatchCmd cfg now g "/stop" arg 2 s = (s, [(cfg.adminId, "Usage: /stop <seconds>")]) := by
  unfold dispatchCmd
  rw [if_neg (by decide), if_pos rfl, if_pos (by decide), hp]

theorem dispatchCmd_stime_none (cfg : Config) (now : Int) (g arg : String) (s : BotState)
    (hp : parseIntJS arg = none) :
    dispatchCmd cfg now g "/stime" arg 2 s = (s, [(cfg.adminId, "Usage: /stime <seconds>")]) := by
  unfold dispatchCmd
  rw [if_neg (by decide), if_neg (by decide), if_pos rfl, if_pos (by decide), hp]

theorem dispatchCmd_time_none (cfg : Config) (now : Int) (g arg : String) (s : BotState)
    (hp : parseIntJS arg = none) :
    dispatchCmd cfg now g "/time" arg 2 s = (s, [(cfg.adminId, "Usage: /time <seconds>")]) := by
  unfold dispatchCmd
  rw [if_neg (by decide), if_neg (by decide), if_neg (by decide), if_pos rfl,
    if_pos (by decide), hp]

theorem dispatchCmd_gen_none (cfg : Config) (now : Int) (g arg : String) (s : BotState)
    (hp : parseIntJS arg = none) :
    dispatchCmd cfg now g "/gen" arg 2 s =
      (s, [(cfg.adminId, "Please specify a positive number for /gen.")]) := by
  unfold dispatchCmd
  rw [if_neg (by decide), if_neg (by decide), if_neg (by decide), if_neg (by decide),
    if_pos rfl, if_pos (by decide), hp]

theorem dispatchCmd_bin (cfg : Config) (now : Int) (g arg : String) (s : BotState) :
    dispatchCmd cfg now g "/bin" arg 2 s =
      ({ s with bins := (addBinsLoop (splitComma (removeWs arg)) s.bins 0).1,
                events := s.events ++ [Event.addBin (splitComma (removeWs arg))] },
       [(cfg.adminId, "✅ Added " ++ toString (addBinsLoop (splitComma (removeWs arg)) s.bins 0).2
          ++ " new BIN(s). Total in database: "
          ++ toString (addBinsLoop (splitComma (removeWs arg)) s.bins 0).1.length)]) := by
  unfold dispatchCmd
  rw [if_neg (by decide), if_neg (by decide), if_neg (by decide), if_neg (by decide),
    if_neg (by decide), if_pos rfl, if_pos (by decide)]

theorem addBinsLoop_spec (bs : List String) : ∀ (cur : List String) (k : Nat),
    cur.Nodup →
    (addBinsLoop bs cur k).1.Nodup ∧
    cur.length ≤ (addBinsLoop bs cur k).1.length ∧
    (addBinsLoop bs cur k).2 = k + ((addBinsLoop bs cur k).1.length - cur.length) ∧
    ∀ x ∈ (addBinsLoop bs cur k).1, x ∈ cur ∨ x ∈ bs.map (fun b => jsTrim b) := by
  induction bs with
  | nil =>
    intro cur k h
    refine ⟨h, le_refl _, by simp [addBinsLoop], ?_⟩
    intro x hx
    exact Or.inl (by simpa [addBinsLoop] using hx)
  | cons b bs ih =>
    intro cur k h
    by_cases hc : jsTrim b ≠ "" ∧ jsTrim b ∉ cur
    · have hnd : (cur ++ [jsTrim b]).Nodup := by
        simp [List.nodup_append, h, hc.2]
      have step : addBinsLoop (b :: bs) cur k = addBinsLoop bs (cur ++ [jsTrim b]) (k + 1) := by
        simp only [addBinsLoop]
        rw [if_pos hc]
      obtain ⟨r1, r2, r3, r4⟩ := ih (cur ++ [jsTrim b]) (k + 1) hnd
      rw [step]
      refine ⟨r1, ?_, ?_, ?_⟩
      · calc cur.length ≤ (cur ++ [jsTrim b]).length := by simp
          _ ≤ _ := r2
      · rw [r3]
        have hl : (cur ++ [jsTrim b]).length = cur.length + 1 := by simp
        rw [hl] at r2 ⊢
        omega
      · intro x hx
        rcases r4 x hx with hx' | hx'
        · rcases List.mem_append.mp hx' with h1 | h1
          · exact Or.inl h1
          · right
            simp only [List.mem_singleton] at h1
            simp [h1]
        · right
          simp [hx']
    · have step : addBinsLoop (b :: bs) cur k = addBinsLoop bs cur k := by
        simp only [addBinsLoop]
        rw [if_neg hc]
      obtain ⟨r1, r2, r3, r4⟩ := ih cur k h
      rw [step]
      refine ⟨r1, r2, r3, ?_⟩
      intro x hx
      rcases r4 x hx with hx' | hx'
      · exact Or.inl hx'
      · right
        simp [hx']

theorem lookupStats_increment (day : String) (isSent : Bool) :
    ∀ st : List (String × Nat × Nat),
    lookupStats day (incrementStats day isSent st) = incStatsKey isSent (lookupStats day st) := by
  intro st
  induction st with
  | nil => simp [incrementStats, lookupStats]
  | cons p rest ih =>
    obtain ⟨d, se⟩ := p
    by_cases hd : d = day
    · simp [incrementStats, lookupStats, hd]
    · simp [incrementStats, lookupStats, hd, ih]

theorem dispatchCmd_shape (cfg : Config) (now : Int) (g command arg : String)
    (argc : Nat) (s : BotState) (r : BotState)
    (hr : r = (dispatchCmd cfg now g command arg argc s).1) :
    (r.isRunning = s.isRunning ∧ r.stopEndTime = s.stopEndTime ∧
       r.runStartTime = s.runStartTime ∧ r.interval = s.interval) ∨
    (r.isRunning = true ∧ r.stopEndTime = none ∧ r.runStartTime = some now ∧
       r.interval = s.interval) ∨
    (∃ n : Int, r.isRunning = true ∧ r.stopEndTime = some (now + n) ∧
       r.runStartTime = some now ∧ r.interval = s.interval) ∨
    (r.isRunning = false ∧ r.stopEndTime = none ∧ r.runStartTime = none ∧
       r.interval = s.interval) ∨
    (command = "/time" ∧ argc > 1 ∧ parseIntJS arg = some r.interval ∧
       r.isRunning = s.isRunning ∧ r.stopEndTime = s.stopEndTime ∧
       r.runStartTime = s.runStartTime) := by
  unfold dispatchCmd at hr
  by_cases h1 : command = "/start"
  · rw [if_pos h1] at hr
    subst hr
    exact Or.inr (Or.inl ⟨rfl, rfl, rfl, rfl⟩)
  rw [if_neg h1] at hr
  by_cases h2 : command = "/stop"
  · rw [if_pos h2] at hr
    by_cases ha : argc > 1
    · rw [if_pos ha] at hr
      rcases hp : parseIntJS arg with _ | n <;> rw [hp] at hr <;> subst hr
      · exact Or.inl ⟨rfl, rfl, rfl, rfl⟩
      · exact Or.inr (Or.inr (Or.inl ⟨n, rfl, rfl, rfl, rfl⟩))
    · rw [if_neg ha] at hr
      subst hr
      exact Or.inr (Or.inr (Or.inr (Or.inl ⟨rfl, rfl, rfl, rfl⟩)))
  rw [if_neg h2] at hr
  by_cases h3 : command = "/stime"
  · rw [if_pos h3] at hr
    by_cases ha : argc > 1
    · rw [if_pos ha] at hr
      rcases hp : parseIntJS arg with _ | n <;> rw [hp] at hr <;> subst hr
      · exact Or.inl ⟨rfl, rfl, rfl, rfl⟩
      · exact Or.inr (Or.inr (Or.inl ⟨n, rfl, rfl, rfl, rfl⟩))
    · rw [if_neg ha] at hr
      subst hr
      exact Or.inl ⟨rfl, rfl, rfl, rfl⟩
  rw [if_neg h3] at hr
  by_cases h4 : command = "/time"
  · rw [if_pos h4] at hr
    by_cases ha : argc > 1
    · rw [if_pos ha] at hr
      rcases hp : parseIntJS arg with _ | n <;> rw [hp] at hr <;> subst hr
      · exact Or.inl ⟨rfl, rfl, rfl, rfl⟩
      · exact Or.inr (Or.inr (Or.inr (Or.inr ⟨h4, ha, rfl, rfl, rfl, rfl⟩)))
    · rw [if_neg ha] at hr
      subst hr
      exact Or.inl ⟨rfl, rfl, rfl, rfl⟩
  rw [if_neg h4] at hr
  by_cases h5 : command = "/gen"
  · rw [if_pos h5] at hr
    by_cases ha : argc > 1
    · rw [if_pos ha] at hr
      rcases hp : parseIntJS arg with _ | n <;> rw [hp] at hr
      · subst hr
        exact Or.inl ⟨rfl, rfl, rfl, rfl⟩
      · have hr2 : r = (if n > 0 then (s, [(cfg.adminId, g)])
            else (s, [(cfg.adminId, "Please specify a positive number for /gen.")])).1 := hr
        by_cases hn : n > 0
        · rw [if_pos hn] at hr2
          subst hr2
          exact Or.inl ⟨rfl, rfl, rfl, rfl⟩
        · rw [if_neg hn] at hr2
          subst hr2
          exact Or.inl ⟨rfl, rfl, rfl, rfl⟩
    · rw [if_neg ha] at hr
      subst hr
      exact Or.inl ⟨rfl, rfl, rfl, rfl⟩
  rw [if_neg h5] at hr
  by_cases h6 : command = "/bin"
  · rw [if_pos h6] at hr
    by_cases ha : argc > 1
    · rw [if_pos ha] at hr
      subst hr
      exact Or.inl ⟨rfl, rfl, rfl, rfl⟩
    · rw [if_neg ha] at hr
      subst hr
      exact Or.inl ⟨rfl, rfl, rfl, rfl⟩
  rw [if_neg h6] at hr
  by_cases h7 : command = "/remove"
  · rw [if_pos h7] at hr
    subst hr
    exact Or.inl ⟨rfl, rfl, rfl, rfl⟩
  rw [if_neg h7] at hr
  by_cases h8 : command = "/r"
  · rw [if_pos h8] at hr
    by_cases ha : argc > 1
    · rw [if_pos ha] at hr
      by_cases hb : s.bins.contains (jsTrim arg) = true
      · rw [if_pos hb] at hr
        subst hr
        exact Or.inl ⟨rfl, rfl, rfl, rfl⟩
      · rw [if_neg hb] at hr
        subst hr
        exact Or.inl ⟨rfl, rfl, rfl, rfl⟩
    · rw [if_neg ha] at hr
      subst hr
      exact Or.inl ⟨rfl, rfl, rfl, rfl⟩
  rw [if_neg h8] at hr
  by_cases h9 : command = "/info"
  · rw [if_pos h9] at hr
    by_cases hs : s.stats = []
    · rw [if_pos hs] at hr
      subst hr
      exact Or.inl ⟨rfl, rfl, rfl, rfl⟩
    · rw [if_neg hs] at hr
      subst hr
      exact Or.inl ⟨rfl, rfl, rfl, rfl⟩
  rw [if_neg h9] at hr
  by_cases h10 : command = "/logs"
  · rw [if_pos h10] at hr
    by_cases he : s.events = []
    · rw [if_pos he] at hr
      subst hr
      exact Or.inl ⟨rfl, rfl, rfl, rfl⟩
    · rw [if_neg he] at hr
      subst hr
      exact Or.inl ⟨rfl, rfl, rfl, rfl⟩
  rw [if_neg h10] at hr
  subst hr
  exact Or.inl ⟨rfl, rfl, rfl, rfl⟩

theorem dispatchCmd_runInv (cfg : Config) (now : Int) (g command arg : String)
    (argc : Nat) (s : BotState) (h : RunInv s) :
    RunInv (dispatchCmd cfg now g command arg argc s).1 := by
  rcases dispatchCmd_shape cfg now g command arg argc s _ rfl with
    ⟨e1, e2, e3, _⟩ | ⟨e1, e2, e3, _⟩ | ⟨n, e1, e2, e3, _⟩ | ⟨e1, e2, e3, _⟩ |
    ⟨_, _, _, e1, e2, e3⟩
  · exact ⟨fun hne => by rw [e1]; exact h.1 (by rwa [e2] at hne),
      fun hne => by rw [e1]; exact h.2 (by rwa [e3] at hne)⟩
  · exact ⟨fun _ => e1, fun _ => e1⟩
  · exact ⟨fun _ => e1, fun _ => e1⟩
  · exact ⟨fun hne => absurd e2 hne, fun hne => absurd e3 hne⟩
  · exact ⟨fun hne => by rw [e1]; exact h.1 (by rwa [e2] at hne),
      fun hne => by rw [e1]; exact h.2 (by rwa [e3] at hne)⟩

theorem dispatchCmd_interval (cfg : Config) (now : Int) (g command arg : String)
    (argc : Nat) (s : BotState) :
    (dispatchCmd cfg now g command arg argc s).1.interval = s.interval ∨
    (command = "/time" ∧ argc > 1 ∧
      parseIntJS arg = some ((dispatchCmd cfg now g command arg argc s).1.interval)) := by
  rcases dispatchCmd_shape cfg now g command arg argc s _ rfl with
    ⟨_, _, _, e4⟩ | ⟨_, _, _, e4⟩ | ⟨n, _, _, _, e4⟩ | ⟨_, _, _, e4⟩ | ⟨hc, ha, hp, _, _, _⟩
  · exact Or.inl e4
  · exact Or.inl e4
  · exact Or.inl e4
  · exact Or.inl e4
  · exact Or.inr ⟨hc, ha, hp⟩

theorem stepRun_runInv (cfg : Config) (st : Step) (s : BotState) (h : RunInv s) :
    RunInv (stepRun cfg st s).1 := by
  cases st with
  | autoChk now =>
    simp only [stepRun]
    unfold autoStopStep
    split
    · split_ifs with hc
      · exact ⟨fun hne => absurd rfl hne, fun hne => absurd rfl hne⟩
      · exact h
    · exact h
  | emit now day card ok =>
    simp only [stepRun]
    unfold emitStep
    split_ifs <;> exact h
  | msg now sender text g =>
    simp only [stepRun]
    unfold handleMessage
    split_ifs with h1 h2 h3
    · exact dispatchCmd_runInv cfg now g _ _ _ s h
    · exact h
    · exact h
    · exact h

theorem runSteps_runInv (cfg : Config) (steps : List Step) :
    ∀ s : BotState, RunInv s → RunInv (runSteps cfg s steps) := by
  induction steps with
  | nil => intro s h; exact h
  | cons st rest ih =>
    intro s h
    exact ih _ (stepRun_runInv cfg st s h)

theorem stepRun_interval (cfg : Config) (st : Step) (s : BotState) :
    (stepRun cfg st s).1.interval = s.interval ∨
    stepTimeArg cfg st = some ((stepRun cfg st s).1.interval) := by
  cases st with
  | autoChk now =>
    left
    simp only [stepRun]
    unfold autoStopStep
    split
    · split_ifs <;> rfl
    · rfl
  | emit now day card ok =>
    left
    simp only [stepRun]
    unfold emitStep
    split_ifs <;> rfl
  | msg now sender text g =>
    simp only [stepRun]
    unfold handleMessage
    by_cases hstart : strStartsWith text "/" = true
    · rw [if_pos hstart]
      by_cases hadmin : sender = cfg.adminId
      · rw [if_pos hadmin]
        have hd := dispatchCmd_interval cfg now g (lowerAscii ((cmdPartsOf text).headD ""))
          ((cmdPartsOf text).getD 1 "") (cmdPartsOf text).length s
        rcases hd with hd | ⟨hc, ha, hp⟩
        · left
          exact hd
        · right
          simp only [stepTimeArg]
          rw [if_pos ⟨hstart, hadmin, hc, ha⟩]
          exact hp
      · rw [if_neg hadmin]
        left
        split_ifs <;> rfl
    · rw [if_neg hstart]
      left
      rfl

theorem runSteps_interval_nonneg (cfg : Config) (steps : List Step) :
    ∀ s : BotState, 0 ≤ s.interval →
    (∀ st ∈ steps, ∀ n : Int, stepTimeArg cfg st = some n → 0 ≤ n) →
    0 ≤ (runSteps cfg s steps).interval := by
  induction steps with
  | nil => intro s h _; exact h
  | cons st rest ih =>
    intro s h hall
    have hstep : 0 ≤ (stepRun cfg st s).1.interval := by
      rcases stepRun_interval cfg st s with he | he
      · rw [he]
        exact h
      · exact hall st (by simp) _ he
    exact ih _ hstep (fun st' hst' => hall st' (by simp [hst']))

theorem incStatsKey_false (p : Nat × Nat) : incStatsKey false p = (p.1, p.2 + 1) := by
  rcases p with ⟨a, b⟩
  rfl

theorem incStatsKey_true (p : Nat × Nat) : incStatsKey true p = (p.1 + 1, p.2) := by
  rcases p with ⟨a, b⟩
  rfl

/-- C4: for every argument string that parseInt turns into an integer n,
the operator command stop n leaves the run-state with running = true,
runStartedAt = now and scheduledStopAt = now + n, so scheduledStopAt equals
runStartedAt plus the requested seconds. -/
theorem stop_seconds_sets_schedule (cfg : Config) (now : Int) (g : String) (s : BotState)
    (arg : String) (n : Int)
    (ha1 : arg.toList ≠ []) (ha2 : ∀ c ∈ arg.toList, c.isWhitespace = false)
    (hp : parseIntJS arg = some n) :
    (handleMessage cfg now cfg.adminId ("/stop" ++ " " ++ arg) g s).1.isRunning = true ∧
    (handleMessage cfg now cfg.adminId ("/stop" ++ " " ++ arg) g s).1.runStartTime = some now ∧
    (handleMessage cfg now cfg.adminId ("/stop" ++ " " ++ arg) g s).1.stopEndTime = some (now + n) ∧
    (handleMessage cfg now cfg.adminId ("/stop" ++ " " ++ arg) g s).1.stopEndTime =
      ((handleMessage cfg now cfg.adminId ("/stop" ++ " " ++ arg) g s).1.runStartTime).map
        (fun t => t + n) := by
  have hstart : strStartsWith ("/stop" ++ " " ++ arg) "/" = true :=
    strStartsWith_append "/" ("/stop" ++ " ") arg (by decide)
  rw [handleMessage_admin cfg now _ g s hstart,
    cmdParts_pair _ _ (by decide) (by decide) ha1 ha2, dispatchAdmin_pair,
    show lowerAscii "/stop" = "/stop" from by decide,
    dispatchCmd_stop_some cfg now g arg s n hp]
  exact ⟨rfl, rfl, rfl, rfl⟩

/-- C4 witness: /stop 30 at time 100 arms the stop for time 130 with
running = true. -/
theorem stop_seconds_sets_schedule_witness :
    (handleMessage cfg0 100 1 ("/stop" ++ " " ++ "30") "" st0).1.isRunning = true ∧
    (handleMessage cfg0 100 1 ("/stop" ++ " " ++ "30") "" st0).1.runStartTime = some 100 ∧
    (handleMessage cfg0 100 1 ("/stop" ++ " " ++ "30") "" st0).1.stopEndTime = some (100 + 30) := by
  have h := stop_seconds_sets_schedule cfg0 100 "" st0 "30" 30 (by decide) (by decide) (by decide)
  exact ⟨h.1, h.2.1, h.2.2.1⟩

/-- C1 (counterexample): "12abc" is not an integer string, yet the operator
command time 12abc mutates the state (interval becomes 12, lastSendTime
and the event log also change) and replies with the confirmation message,
not the usage message. -/
theorem time_nonInteger_arg_mutates_state :
    isIntegerString "12abc" = false ∧
    st0.interval = 10 ∧
    (handleMessage cfg0 100 1 "/time 12abc" "" st0).1.interval = 12 ∧
    (handleMessage cfg0 100 1 "/time 12abc" "" st0).1 ≠ st0 ∧
    (handleMessage cfg0 100 1 "/time 12abc" "" st0).2 =
      [(1, "⏱ Interval set to 12 second(s) per card.")] ∧
    (handleMessage cfg0 100 1 "/time 12abc" "" st0).2 ≠ [(1, usageText "/time")] := by
  decide

/-- C1 (amended): for every operator command among stop (with argument),
stime, time and gen whose argument fails integer parsing (parseInt yields
NaN, i.e. the argument has no leading integer prefix), the handler sends
exactly the usage or validation-error message and leaves the whole state
(run flag, timers, lastSendTime, interval, key list, counters, event log)
unchanged. -/
theorem invalid_parse_arg_no_mutation (cfg : Config) (now : Int) (g : String) (s : BotState)
    (cmd arg : String)
    (hc : cmd = "/stop" ∨ cmd = "/stime" ∨ cmd = "/time" ∨ cmd = "/gen")
    (ha1 : arg.toList ≠ []) (ha2 : ∀ c ∈ arg.toList, c.isWhitespace = false)
    (hp : parseIntJS arg = none) :
    handleMessage cfg now cfg.adminId (cmd ++ " " ++ arg) g s =
      (s, [(cfg.adminId, usageText cmd)]) := by
  have hstart : strStartsWith (cmd ++ " " ++ arg) "/" = true := by
    rcases hc with h | h | h | h <;> subst h <;>
      exact strStartsWith_append "/" _ arg (by decide)
  rw [handleMessage_admin cfg now _ g s hstart]
  rcases hc with h | h | h | h <;> subst h
  · rw [cmdParts_pair _ _ (by decide) (by decide) ha1 ha2, dispatchAdmin_pair,
      show lowerAscii "/stop" = "/stop" from by decide,
      dispatchCmd_stop_none cfg now g arg s hp]
    rfl
  · rw [cmdParts_pair _ _ (by decide) (by decide) ha1 ha2, dispatchAdmin_pair,
      show lowerAscii "/stime" = "/stime" from by decide,
      dispatchCmd_stime_none cfg now g arg s hp]
    rfl
  · rw [cmdParts_pair _ _ (by decide) (by decide) ha1 ha2, dispatchAdmin_pair,
      show lowerAscii "/time" = "/time" from by decide,
      dispatchCmd_time_none cfg now g arg s hp]
    rfl
  · rw [cmdParts_pair _ _ (by decide) (by decide) ha1 ha2, dispatchAdmin_pair,
      show lowerAscii "/gen" = "/gen" from by decide,
      dispatchCmd_gen_none cfg now g arg s hp]
    rfl

/-- C1 witness: /time abc leaves the state unchanged and answers with the
usage message. -/
theorem invalid_parse_arg_no_mutation_witness :
    parseIntJS "abc" = none ∧
    handleMessage cfg0 7 1 ("/time" ++ " " ++ "abc") "" st0 =
      (st0, [(1, usageText "/time")]) :=
  ⟨by decide,
   invalid_parse_arg_no_mutation cfg0 7 "" st0 "/time" "abc"
     (Or.inr (Or.inr (Or.inl rfl))) (by decide) (by decide) (by decide)⟩

/-- C3 (counterexample): the state reached from the initial state by the
single operator command time -5 has intervalSeconds = -5, which is
negative, so intervalSeconds >= 0 is not an invariant. -/
theorem time_negative_arg_negative_interval :
    (runSteps cfg0 (initStateWith [] [] []) [Step.msg 50 1 "/time -5" ""]).interval = -5 ∧
    ¬ (0 ≤ (runSteps cfg0 (initStateWith [] [] []) [Step.msg 50 1 "/time -5" ""]).interval) := by
  decide

/-- C3 (amended): intervalSeconds starts at the nonnegative default and is
changed only by time commands, to exactly the parsed integer argument; it
stays nonnegative over any sequence of commands and scheduler steps whose
time commands all carry a nonnegative parsed argument, but a negative
argument makes it negative. -/
theorem interval_nonneg_unless_negative_time_arg (cfg : Config)
    (bins0 : List String) (stats0 : List (String × Nat × Nat)) (events0 : List Event)
    (steps : List Step)
    (h : ∀ st ∈ steps, ∀ n : Int, stepTimeArg cfg st = some n → 0 ≤ n) :
    0 ≤ (runSteps cfg (initStateWith bins0 stats0 events0) steps).interval :=
  runSteps_interval_nonneg cfg steps _ (by decide : (0 : Int) ≤ 10) h

/-- C3 witness: a run containing only the command /time 7 keeps the
interval nonnegative. -/
theorem interval_nonneg_unless_negative_time_arg_witness :
    0 ≤ (runSteps cfg0 (initStateWith [] [] []) [Step.msg 50 1 "/time 7" ""]).interval := by
  refine interval_nonneg_unless_negative_time_arg cfg0 [] [] [] _ ?_
  intro st hst n hn
  have hst' : st = Step.msg 50 1 "/time 7" "" := by simpa using hst
  subst hst'
  rw [show stepTimeArg cfg0 (Step.msg 50 1 "/time 7" "") = some 7 from by decide] at hn
  injection hn with hn
  omega

/-- C5: in every state reachable from the initial state by any sequence of
commands and scheduler steps, a set scheduledStopAt implies running = true
and a set runStartedAt implies running = true. -/
theorem runstate_invariant_all_reachable (cfg : Config) (bins0 : List String)
    (stats0 : List (String × Nat × Nat)) (events0 : List Event) (steps : List Step) :
    RunInv (runSteps cfg (initStateWith bins0 stats0 events0) steps) :=
  runSteps_runInv cfg steps _ ⟨fun hne => absurd rfl hne, fun hne => absurd rfl hne⟩

/-- C2 (counterexample): after a failed send at time 100 from a running
state whose lastSendTime is 0, lastSendTime becomes 700 (the instant at
the end of the 600s cooldown), so lastEmitAt is NOT left unchanged; and at
the next loop tick (time 701) the due-check fails, so the interval is NOT
still considered elapsed. -/
theorem send_failure_changes_lastEmit :
    stC2.lastSendTime = 0 ∧
    (emitStep cfg0 100 "2024-01-01" "card" false stC2).1.lastSendTime = 700 ∧
    (emitStep cfg0 100 "2024-01-01" "card" false stC2).1.lastSendTime ≠ stC2.lastSendTime ∧
    emitStep cfg0 701 "2024-01-01" "card2" true
        (emitStep cfg0 100 "2024-01-01" "card" false stC2).1 =
      ((emitStep cfg0 100 "2024-01-01" "card" false stC2).1, []) := by
  decide

/-- C2 (amended): on a due emission attempt with a nonempty key list whose
outbound send fails, the day's failed counter is incremented by one (the
sent counter unchanged), the operator is notified, and after the
ERROR_SLEEP cooldown lastSendTime is set to the instant at the end of the
cooldown (now + ERROR_SLEEP), so the next emission happens no earlier than
a full interval after the cooldown ends. -/
theorem send_failure_backoff (cfg : Config) (now : Int) (day card : String) (s : BotState)
    (hrun : s.isRunning = true) (hdue : now - s.lastSendTime ≥ s.interval)
    (hbins : s.bins ≠ []) :
    emitStep cfg now day card false s =
      ({ s with stats := incrementStats day false s.stats,
                lastSendTime := now + ERROR_SLEEP },
       [(cfg.channelId, card),
        (cfg.adminId, "⚠️ Error sending card message. Retrying in 600s...")]) ∧
    (lookupStats day (emitStep cfg now day card false s).1.stats).2 =
      (lookupStats day s.stats).2 + 1 ∧
    (lookupStats day (emitStep cfg now day card false s).1.stats).1 =
      (lookupStats day s.stats).1 ∧
    (emitStep cfg now day card false s).1.lastSendTime = now + ERROR_SLEEP := by
  have he : emitStep cfg now day card false s =
      ({ s with stats := incrementStats day false s.stats,
                lastSendTime := now + ERROR_SLEEP },
       [(cfg.channelId, card),
        (cfg.adminId, "⚠️ Error sending card message. Retrying in 600s...")]) := by
    unfold emitStep
    rw [if_pos ⟨hrun, hdue⟩, if_neg hbins, if_neg (by decide)]
  refine ⟨he, ?_, ?_, ?_⟩
  · rw [he]
    dsimp only
    rw [lookupStats_increment, incStatsKey_false]
  · rw [he]
    dsimp only
    rw [lookupStats_increment, incStatsKey_false]
  · rw [he]

/-- C2 witness: the amended behaviour evaluated at a concrete failing
send. -/
theorem send_failure_backoff_witness :
    (emitStep cfg0 100 "2024-01-01" "card" false stC2).1.lastSendTime = 100 + ERROR_SLEEP ∧
    (lookupStats "2024-01-01" (emitStep cfg0 100 "2024-01-01" "card" false stC2).1.stats).2 =
      (lookupStats "2024-01-01" stC2.stats).2 + 1 :=
  ⟨(send_failure_backoff cfg0 100 "2024-01-01" "card" stC2 rfl (by decide) (by decide)).2.2.2,
   (send_failure_backoff cfg0 100 "2024-01-01" "card" stC2 rfl (by decide) (by decide)).2.1⟩

/-- C6: once the auto-stop check has triggered (returned a message), the
state has no armed stop timer any more, so running the check again at any
later instant leaves the state unchanged and produces no message and no
further auto-stop log entry. -/
theorem autoStop_idempotent (cfg : Config) (now now2 : Int) (s s2 : BotState) (out : List Msg)
    (h : autoStopStep cfg now s = (s2, out)) (hout : out ≠ []) :
    autoStopStep cfg now2 s2 = (s2, []) := by
  cases hse : s.stopEndTime with
  | none =>
    have h' : ((s, []) : BotState × List Msg) = (s2, out) := by
      have hh := h
      unfold autoStopStep at hh
      rw [hse] at hh
      exact hh
    have hout2 : ([] : List Msg) = out := congrArg Prod.snd h'
    exact absurd hout2.symm hout
  | some t =>
    have h' : (if t ≠ 0 ∧ now ≥ t then
        (({ s with isRunning := false, runStartTime := none, stopEndTime := none, events := s.events ++ [Event.autoStop (now - (s.runStartTime.getD 0))] },
          [(cfg.adminId, "⏹️ Time is up! The bot is now off.")]) : BotState × List Msg)
        else (s, [])) = (s2, out) := by
      have hh := h
      unfold autoStopStep at hh
      rw [hse] at hh
      exact hh
    by_cases hc : t ≠ 0 ∧ now ≥ t
    · rw [if_pos hc] at h'
      have h1 : ({ s with isRunning := false, runStartTime := none, stopEndTime := none, events := s.events ++ [Event.autoStop (now - (s.runStartTime.getD 0))] } :
            BotState) = s2 := congrArg Prod.fst h'
      have hnone : s2.stopEndTime = none := by
        rw [← h1]
      unfold autoStopStep
      rw [hnone]
    · rw [if_neg hc] at h'
      have hout2 : ([] : List Msg) = out := congrArg Prod.snd h'
      exact absurd hout2.symm hout

/-- C6 witness: after the check at time 20 stops the armed state, a second
check at time 25 is a no-op with no output. -/
theorem autoStop_idempotent_witness :
    autoStopStep cfg0 25 (autoStopStep cfg0 20 stAuto).1 =
      ((autoStopStep cfg0 20 stAuto).1, []) :=
  autoStop_idempotent cfg0 20 25 stAuto (autoStopStep cfg0 20 stAuto).1
    (autoStopStep cfg0 20 stAuto).2 rfl (by decide)

/-- C7: a due emission attempt made while the key list is empty sends the
operator the no-keys notice and leaves the whole state unchanged, so
neither counter is incremented and lastSendTime keeps its old value. -/
theorem emit_empty_keylist_no_change (cfg : Config) (now : Int) (day card : String)
    (ok : Bool) (s : BotState)
    (hrun : s.isRunning = true) (hdue : now - s.lastSendTime ≥ s.interval)
    (hbins : s.bins = []) :
    emitStep cfg now day card ok s =
      (s, [(cfg.adminId, "⚠️ No BINs in database. Add some with /bin <list>.")]) := by
  unfold emitStep
  rw [if_pos ⟨hrun, hdue⟩, if_pos hbins]

/-- C7 witness: the empty-key-list attempt evaluated concretely. -/
theorem emit_empty_keylist_no_change_witness :
    emitStep cfg0 100 "2024-01-01" "card" true { st0 with isRunning := true } =
      ({ st0 with isRunning := true },
       [(1, "⚠️ No BINs in database. Add some with /bin <list>.")]) :=
  emit_empty_keylist_no_change cfg0 100 "2024-01-01" "card" true
    { st0 with isRunning := true } rfl (by decide) rfl

/-- C8: a message from a sender other than the operator never mutates the
state, and it draws the single not-authorized reply exactly when the text
starts with "/" and its lowercased form starts with one of the known
command names; otherwise it draws no reply at all. -/
theorem non_operator_reply_iff (cfg : Config) (now : Int) (sender : Int) (text g : String)
    (s : BotState) (h : sender ≠ cfg.adminId) :
    (handleMessage cfg now sender text g s).1 = s ∧
    ((handleMessage cfg now sender text g s).2 = [(sender, notAuthText)] ↔
      (strStartsWith text "/" = true ∧
        knownCmds.any (fun c => strStartsWith (lowerAscii text) c) = true)) ∧
    ((handleMessage cfg now sender text g s).2 = [(sender, notAuthText)] ∨
      (handleMessage cfg now sender text g s).2 = []) := by
  unfold handleMessage
  by_cases h1 : strStartsWith text "/" = true
  · rw [if_pos h1, if_neg h]
    by_cases h2 : knownCmds.any (fun c => strStartsWith (lowerAscii text) c) = true
    · rw [if_pos h2]
      exact ⟨rfl, ⟨fun _ => ⟨h1, h2⟩, fun _ => rfl⟩, Or.inl rfl⟩
    · rw [if_neg h2]
      exact ⟨rfl, ⟨fun hx => by simp at hx, fun hx => absurd hx.2 h2⟩, Or.inr rfl⟩
  · rw [if_neg h1]
    exact ⟨rfl, ⟨fun hx => by simp at hx, fun hx => absurd hx.1 h1⟩, Or.inr rfl⟩

/-- C8 witness: /stop from a non-operator sender draws the not-authorized
reply and mutates nothing. -/
theorem non_operator_reply_iff_witness :
    (handleMessage cfg0 0 5 "/stop" "" st0).1 = st0 ∧
    ((handleMessage cfg0 0 5 "/stop" "" st0).2 = [(5, notAuthText)] ↔
      (strStartsWith "/stop" "/" = true ∧
        knownCmds.any (fun c => strStartsWith (lowerAscii "/stop") c) = true)) ∧
    ((handleMessage cfg0 0 5 "/stop" "" st0).2 = [(5, notAuthText)] ∨
      (handleMessage cfg0 0 5 "/stop" "" st0).2 = []) :=
  non_operator_reply_iff cfg0 0 5 "/stop" "" st0 (by decide)

/-- C9: for every bin command from the operator, duplicate tokens (already
present in the key list or repeated within the submitted list) are
skipped, only net-new tokens are appended (each element of the result was
already present or is one of the submitted trimmed tokens), and the ack
reports exactly the net-new count and the new total; in particular, from
an empty key list, bin 400000,400000,510000 yields the list
400000, 510000 and the ack "Added 2 new BIN(s). Total in database: 2". -/
theorem bin_dedup_and_ack :
    (∀ (cfg : Config) (now : Int) (g arg : String) (s : BotState),
      arg.toList ≠ [] → (∀ c ∈ arg.toList, c.isWhitespace = false) → s.bins.Nodup →
      ((handleMessage cfg now cfg.adminId ("/bin" ++ " " ++ arg) g s).1.bins.Nodup ∧
       s.bins.length ≤ (handleMessage cfg now cfg.adminId ("/bin" ++ " " ++ arg) g s).1.bins.length ∧
       (handleMessage cfg now cfg.adminId ("/bin" ++ " " ++ arg) g s).2 =
         [(cfg.adminId, "✅ Added "
            ++ toString ((handleMessage cfg now cfg.adminId ("/bin" ++ " " ++ arg) g s).1.bins.length
                - s.bins.length)
            ++ " new BIN(s). Total in database: "
            ++ toString (handleMessage cfg now cfg.adminId ("/bin" ++ " " ++ arg) g s).1.bins.length)] ∧
       ∀ x ∈ (handleMessage cfg now cfg.adminId ("/bin" ++ " " ++ arg) g s).1.bins,
         x ∈ s.bins ∨ x ∈ (splitComma (removeWs arg)).map (fun b => jsTrim b))) ∧
    (∀ (cfg : Config) (now : Int) (g : String) (s : BotState), s.bins = [] →
      (handleMessage cfg now cfg.adminId "/bin 400000,400000,510000" g s).1.bins
          = ["400000", "510000"] ∧
      (handleMessage cfg now cfg.adminId "/bin 400000,400000,510000" g s).2 =
        [(cfg.adminId, "✅ Added 2 new BIN(s). Total in database: 2")]) := by
  constructor
  · intro cfg now g arg s ha1 ha2 hnd
    have hstart : strStartsWith ("/bin" ++ " " ++ arg) "/" = true :=
      strStartsWith_append "/" ("/bin" ++ " ") arg (by decide)
    rw [handleMessage_admin cfg now _ g s hstart,
      cmdParts_pair _ _ (by decide) (by decide) ha1 ha2, dispatchAdmin_pair,
      show lowerAscii "/bin" = "/bin" from by decide, dispatchCmd_bin]
    obtain ⟨r1, r2, r3, r4⟩ := addBinsLoop_spec (splitComma (removeWs arg)) s.bins 0 hnd
    refine ⟨r1, r2, ?_, fun x hx => r4 x hx⟩
    dsimp only
    rw [r3, Nat.zero_add]
  · intro cfg now g s hb
    rw [handleMessage_admin cfg now _ g s (by decide),
      show cmdPartsOf "/bin 400000,400000,510000" = ["/bin", "400000,400000,510000"]
        from by decide,
      dispatchAdmin_pair, show lowerAscii "/bin" = "/bin" from by decide,
      dispatchCmd_bin, hb]
    constructor
    · show (addBinsLoop (splitComma (removeWs "400000,400000,510000")) ([] : List String) 0).1
          = ["400000", "510000"]
      decide
    · exact congrArg (fun m => [(cfg.adminId, m)]) (by decide)

/-- C9 witness: the general part evaluated on a fresh two-token submission
and the scenario evaluated from the empty key list. -/
theorem bin_dedup_and_ack_witness :
    (handleMessage cfg0 0 1 ("/bin" ++ " " ++ "400000,510000") "" st0).1.bins.Nodup ∧
    (handleMessage cfg0 0 1 "/bin 400000,400000,510000" "" st0).1.bins = ["400000", "510000"] :=
  ⟨(bin_dedup_and_ack.1 cfg0 0 "" "400000,510000" st0 (by decide) (by decide) (by decide)).1,
   (bin_dedup_and_ack.2 cfg0 0 "" st0 rfl).1⟩

/-- C10: the operator command text is split on whitespace with limit two,
so for every command the first whitespace-separated token after the
command name is the whole argument and any later text is discarded; in
particular "/bin 400000, 510000" submits only the token "400000," and adds
the single key "400000". -/
theorem split_limit_two_discards_rest :
    (∀ a b c : String,
      a.toList ≠ [] → (∀ ch ∈ a.toList, ch.isWhitespace = false) →
      b.toList ≠ [] → (∀ ch ∈ b.toList, ch.isWhitespace = false) →
      cmdPartsOf (a ++ " " ++ b ++ " " ++ c) = [a, b]) ∧
    cmdPartsOf "/bin 400000, 510000" = ["/bin", "400000,"] ∧
    (∀ (cfg : Config) (now : Int) (g : String) (s : BotState), s.bins = [] →
      (handleMessage cfg now cfg.adminId "/bin 400000, 510000" g s).1.bins = ["400000"] ∧
      (handleMessage cfg now cfg.adminId "/bin 400000, 510000" g s).2 =
        [(cfg.adminId, "✅ Added 1 new BIN(s). Total in database: 1")]) := by
  refine ⟨fun a b c ha1 ha2 hb1 hb2 => cmdParts_firstTwo a b c ha1 ha2 hb1 hb2, by decide, ?_⟩
  intro cfg now g s hb
  rw [handleMessage_admin cfg now _ g s (by decide),
    show cmdPartsOf "/bin 400000, 510000" = ["/bin", "400000,"] from by decide,
    dispatchAdmin_pair, show lowerAscii "/bin" = "/bin" from by decide,
    dispatchCmd_bin, hb]
  constructor
  · show (addBinsLoop (splitComma (removeWs "400000,")) ([] : List String) 0).1 = ["400000"]
    decide
  · exact congrArg (fun m => [(cfg.adminId, m)]) (by decide)

/-- C10 witness: the split evaluated on the example text and the example
end to end from the empty key list. -/
theorem split_limit_two_discards_rest_witness :
    cmdPartsOf ("/bin" ++ " " ++ "400000," ++ " " ++ "510000") = ["/bin", "400000,"] ∧
    (handleMessage cfg0 3 1 "/bin 400000, 510000" "" st0).1.bins = ["400000"] :=
  ⟨split_limit_two_discards_rest.1 "/bin" "400000," "510000"
     (by decide) (by decide) (by decide) (by decide),
   (split_limit_two_discards_rest.2.2 cfg0 3 "" st0 rfl).1⟩
